import Mathlib

/-!
Verification development for the Kokolinks contact-scraping repository.

We give a shallow embedding of the two core subsystems:
  * the crawl-and-extract engine (`src/scraper.py`): frontier loop, link
    truncation, contact deduplication, status classification, link scoring,
    and the regex-based contact miner;
  * the enrichment orchestrator (`src/enrichment.py`): credential pre-flight,
    chunking, the primary/strict/bisection retry machine, the response
    parsing contract, and the per-contact post-processing.

External collaborators (the HTTP session, BeautifulSoup candidate harvesting,
`json.loads`, and the OpenAI completion client `ai_client.respond`) are
modelled as explicit oracle parameters; everything the repository's own code
does with their answers is embedded faithfully.
-/

deriving instance DecidableEq for Except

namespace Koko

/-! ## Python string primitives (over `List Char`) -/

/-- Python whitespace class (`str.strip`, regex `\s`), ASCII fragment. -/
def pyIsSpace (c : Char) : Bool :=
  c = ' ' ∨ c = '\t' ∨ c = '\n' ∨ c = '\r' ∨ c = '\x0b' ∨ c = '\x0c'

/-- Python `str.strip()`: drop leading and trailing whitespace. -/
def pyStrip (cs : List Char) : List Char :=
  ((cs.dropWhile pyIsSpace).reverse.dropWhile pyIsSpace).reverse

/-- Python `str.lower()` (ASCII fragment used by the scraper). -/
def lowerList (cs : List Char) : List Char := cs.map Char.toLower

/-- Python `needle in haystack` substring test. -/
def listContainsSub (hay pat : List Char) : Bool :=
  if pat.isPrefixOf hay then true
  else match hay with
    | [] => pat.isEmpty
    | _ :: t => listContainsSub t pat

/-- Substring test on `String`s (Python `"x" in s`). -/
def strContainsSub (hay needle : String) : Bool :=
  listContainsSub hay.toList needle.toList

/-- Number of start positions at which `pat` occurs in `hay` (used only to
formalise the spec's "for each occurrence" reading of the link scorer). -/
def countOcc : List Char → List Char → Nat
  | [], pat => if pat.isEmpty then 1 else 0
  | h :: t, pat => (if pat.isPrefixOf (h :: t) then 1 else 0) + countOcc t pat

/-- Length of Python `s.split(sep)` for a one-character separator:
one more than the number of separator occurrences. -/
def pySplitCount (sep : Char) (cs : List Char) : Nat :=
  (cs.filter (fun c => c = sep)).length + 1

/-! ## Data model (`scraper.py`)

A `Contact` is a Python dict with keys `tipo`, `valor`, `descripcion`, `url`
created by the miner; the enrichment step may add `validado`,
`descripcion_enriquecida` and `flags` (absent keys are `none`). -/

structure Contact where
  tipo : String
  valor : String
  descripcion : String
  url : String
  validado : Option Bool := none
  descripcion_enriquecida : Option String := none
  flags : Option (List String) := none

deriving DecidableEq, Repr

/-- Outcome of `self._session.get(url, timeout=...)` for one URL, with the
page-dependent results of the two HTML analyses abstracted into the oracle:
`pageContacts` is what `_extract_contacts_from_html` mines from the body and
`linkCands` is the scored, sorted, deduplicated candidate list built by
`_collect_links` *before* its final `[: max_links_per_page]` truncation
(the truncation itself is repository logic and stays in the model). -/
inductive FetchOutcome where
  | exc (msg : String)
  | resp (status : Nat) (contentType : String)
      (pageContacts : List Contact) (linkCands : List String)

deriving DecidableEq, Repr

/-- The fields of `CrawlSettings` that the control flow reads
(`request_timeout`, `delay_seconds` and `user_agent` only parameterize I/O). -/
structure SettingsM where
  baseUrl : String
  maxPages : Nat
  maxDepth : Nat
  maxLinksPerPage : Nat

deriving Repr

/-- `CrawlResult` from `scraper.py`. -/
structure CrawlResult where
  contacts : List Contact
  status : String
  visitedPages : Nat
  exploredLinks : Nat
  errors : List String

deriving DecidableEq, Repr

/-- The mutable state of `ContactScraper.run`'s while loop. `visited` and
`queued` are Python sets, represented as duplicate-free lists; `contactsMap`
is the insertion-ordered dict keyed by `(tipo, valor)`. -/
structure CrawlState where
  queue : List (String × Nat)
  visited : List String
  queued : List String
  contactsMap : List ((String × String) × Contact)
  restricted : Bool
  visitedPages : Nat
  exploredLinks : Nat
  errors : List String

deriving DecidableEq, Repr

/-- `RESTRICTED_STATUS = {401, 403, 429, 503}`. -/
def restrictedStatus : List Nat := [401, 403, 429, 503]

/-- `_normalize_url`: drop the URL fragment (everything from the first `#`). -/
def normalizeUrl (url : String) : String :=
  String.mk (url.toList.takeWhile (fun c => c ≠ '#'))

/-- Characters allowed after the first one in a URL scheme. -/
def schemeChar (c : Char) : Bool := c.isAlphanum ∨ c = '+' ∨ c = '-' ∨ c = '.'

/-- Whether `urlparse(url).scheme` is non-empty: a letter-led scheme token
followed by a colon. -/
def hasScheme (url : String) : Bool :=
  let cs := url.toList
  let pre := cs.takeWhile (fun c => c ≠ ':')
  cs.contains ':' && (match pre with
    | [] => false
    | c :: rest => c.isAlpha && rest.all schemeChar)

/-- `_ensure_scheme`: prefix `https://` when the URL has no scheme. -/
def ensureScheme (url : String) : String :=
  if hasScheme url then url else "https://" ++ url

/-- The final truncation step of `_collect_links`: only the top
`max_links_per_page` scored candidates are returned. -/
def collect_links (cands : List String) (maxLinks : Nat) : List String :=
  cands.take maxLinks

/-- Dedup key of a contact: `(contact["tipo"], contact["valor"])`. -/
def contactKey (c : Contact) : String × String := (c.tipo, c.valor)

/-- `if key not in contacts_map: contacts_map[key] = contact` (first-seen wins,
insertion order preserved). -/
def insertIfAbsent (m : List ((String × String) × Contact)) (c : Contact) :
    List ((String × String) × Contact) :=
  if (m.lookup (contactKey c)).isSome then m else m ++ [(contactKey c, c)]

/-- Merge one page's contacts into the session store. -/
def insertContacts (m : List ((String × String) × Contact))
    (cs : List Contact) : List ((String × String) × Contact) :=
  cs.foldl insertIfAbsent m

/-- The enqueue loop over the returned links:
`if link not in visited and link not in queued: queue.append((link, depth+1))`.
The queued set grows as the loop runs, so duplicates within one batch are
also rejected. -/
def enqueueLinks (depth : Nat) (visited : List String) :
    List String → List (String × Nat) → List String →
    List (String × Nat) × List String
  | [], q, qd => (q, qd)
  | l :: ls, q, qd =>
    if ¬ visited.contains l ∧ ¬ qd.contains l then
      enqueueLinks depth visited ls (q ++ [(l, depth)]) (l :: qd)
    else
      enqueueLinks depth visited ls q qd

/-- One iteration of the body of `ContactScraper.run`'s while loop
(lines 86-129 of `scraper.py`), for a non-empty queue. -/
def stepBody (s : SettingsM) (o : String → FetchOutcome) (st : CrawlState) :
    CrawlState :=
  match st.queue with
  | [] => st
  | (url, depth) :: rest =>
    let nu := normalizeUrl url
    if st.visited.contains nu then { st with queue := rest }
    else
      let st1 := { st with queue := rest, visited := nu :: st.visited }
      match o nu with
      | .exc msg => { st1 with errors := st1.errors ++ [nu ++ ": " ++ msg] }
      | .resp status ctype pcs cands =>
        let st2 := { st1 with visitedPages := st1.visitedPages + 1 }
        if restrictedStatus.contains status then
          { st2 with restricted := true,
                     errors := st2.errors ++
                       [nu ++ ": acceso restringido (" ++ toString status ++ ")"] }
        else if ¬ strContainsSub ctype "text/html" then st2
        else
          let st3 := { st2 with contactsMap := insertContacts st2.contactsMap pcs }
          if depth < s.maxDepth then
            let links := collect_links cands s.maxLinksPerPage
            let qqd := enqueueLinks (depth + 1) st3.visited links st3.queue st3.queued
            { st3 with queue := qqd.1, queued := qqd.2,
                       exploredLinks := st3.exploredLinks + links.length }
          else st3

/-- The loop guard `while queue and len(visited) < self.settings.max_pages`. -/
def crawlGuard (s : SettingsM) (st : CrawlState) : Bool :=
  !st.queue.isEmpty && decide (st.visited.length < s.maxPages)

/-- The while loop, driven by fuel; `crawlMeasure` below shows the initial
fuel is always sufficient, so the fuel-0 branch is unreachable from `runFull`. -/
def crawlLoop (s : SettingsM) (o : String → FetchOutcome) :
    Nat → CrawlState → CrawlState
  | 0, st => st
  | n + 1, st =>
    if crawlGuard s st then crawlLoop s o n (stepBody s o st) else st

/-- Termination measure of the loop: each processed page shrinks the page
budget, each skipped duplicate shrinks the queue, and a step enqueues at most
`maxLinksPerPage` new links. -/
def crawlMeasure (s : SettingsM) (st : CrawlState) : Nat :=
  (s.maxPages - st.visited.length) * (s.maxLinksPerPage + 2) + st.queue.length

/-- Initial loop state of `run` (lines 76-83 of `scraper.py`). -/
def initState (s : SettingsM) : CrawlState :=
  let nb := normalizeUrl (ensureScheme s.baseUrl)
  { queue := [(nb, 0)], visited := [], queued := [nb], contactsMap := [],
    restricted := false, visitedPages := 0, exploredLinks := 0, errors := [] }

/-- Fuel sufficient to run the loop to completion. -/
def crawlFuel (s : SettingsM) : Nat := crawlMeasure s (initState s)

/-- Final loop state of `ContactScraper.run`. -/
def runFull (s : SettingsM) (o : String → FetchOutcome) : CrawlState :=
  crawlLoop s o (crawlFuel s) (initState s)

/-- `list(contacts_map.values())`. -/
def contactsOf (st : CrawlState) : List Contact := st.contactsMap.map Prod.snd

/-- The status classification at the end of `run` (lines 132-137):
`RESTRINGIDO` and `NO_ENCONTRADO` are the code's spellings of the spec's
`RESTRICTED` and `NOT_FOUND`. -/
def classify (restricted : Bool) (contacts : List Contact) : String :=
  if restricted = true ∧ contacts = [] then "RESTRINGIDO"
  else if contacts = [] then "NO_ENCONTRADO"
  else "OK"

/-- `ContactScraper.run(settings)` as a function of the fetch oracle. -/
def runResult (s : SettingsM) (o : String → FetchOutcome) : CrawlResult :=
  let st := runFull s o
  { contacts := contactsOf st,
    status := classify st.restricted (contactsOf st),
    visitedPages := st.visitedPages,
    exploredLinks := st.exploredLinks,
    errors := st.errors }

/-- Whether a fetch outcome is a response with a restricted status code. -/
def isRestrictedOut (fo : FetchOutcome) : Bool :=
  match fo with
  | .exc _ => false
  | .resp status _ _ _ => restrictedStatus.contains status

/-! ## Link scoring (`_collect_links`, lines 295-356 of `scraper.py`)

The scoring of one eligible candidate link, as a function of the parsed URL's
query string and path. The crawl model above abstracts the whole candidate
construction into the fetch oracle; here the score computation itself is
embedded so the scoring claim can be settled against it. -/

def priority_keywords : List String :=
  ["contact", "contacto", "about", "nosotros", "soporte", "support",
   "equipo", "team", "help", "ayuda", "ventas", "sales", "service",
   "servicio", "press", "prensa"]

def penalty_keywords : List String :=
  ["blog", "news", "posts", "articulo", "article", "categoria", "category",
   "tag", "legal", "term", "privacy"]

/-- The sequential score computation from `_collect_links`:
`score = 0`, `-1` for a query string, `-1` when `len(path.split("/")) > 5`,
`+6` for each priority keyword contained in the lower-cased path, `-2` for
each penalty keyword contained in it, `+max(0, 12 - len(path_lower))`. -/
def scoreLink (query path : List Char) : Int :=
  let pathLower := lowerList path
  let s0 : Int := 0
  let s1 := if ¬ query.isEmpty then s0 - 1 else s0
  let s2 := if pySplitCount '/' path > 5 then s1 - 1 else s1
  let s3 := priority_keywords.foldl
    (fun sc kw => if listContainsSub pathLower kw.toList then sc + 6 else sc) s2
  let s4 := penalty_keywords.foldl
    (fun sc kw => if listContainsSub pathLower kw.toList then sc - 2 else sc) s3
  s4 + max 0 (12 - (pathLower.length : Int))

/-- The score formula asserted by the claim, with `+6`/`-2` counted per
*occurrence* of each keyword in the lower-cased path. -/
def claimScore (query path : List Char) : Int :=
  let pathLower := lowerList path
  (if ¬ query.isEmpty then (-1 : Int) else 0)
    + (if pySplitCount '/' path > 5 then (-1 : Int) else 0)
    + 6 * ((priority_keywords.map (fun kw => countOcc pathLower kw.toList)).sum : Int)
    - 2 * ((penalty_keywords.map (fun kw => countOcc pathLower kw.toList)).sum : Int)
    + max 0 (12 - (pathLower.length : Int))

/-! ## JSON values and Python exceptions (`enrichment.py`)

`json.loads` is Python standard library, i.e. an external collaborator of the
repository; the model takes it as an oracle `loads : String → Option Json`
(`none` models `json.JSONDecodeError`). JSON numbers are modelled as `Int`,
which is enough for every claim about this code. -/

inductive Json where
  | null
  | bool (b : Bool)
  | num (n : Int)
  | str (s : String)
  | arr (xs : List Json)
  | obj (fields : List (String × Json))

/-- The Python exceptions this code distinguishes: `except RetryableError`
matches only `retryable`; every other constructor falls to `except Exception`. -/
inductive PyErr where
  | valueError (msg : String)
  | retryable (msg : String)
  | attributeError (msg : String)
  | runtimeError (msg : String)
  | other (msg : String)

deriving DecidableEq, Repr

/-- Python `d.get(key)` on a parsed JSON object (`json.loads` never produces
duplicate keys, so first-match lookup is exact). -/
def jGet (fields : List (String × Json)) (key : String) : Option Json :=
  fields.lookup key

/-- Python truthiness of a JSON value (`bool(x)`). -/
def jTruthy : Json → Bool
  | .null => false
  | .bool b => b
  | .num n => n ≠ 0
  | .str s => ¬ s.isEmpty
  | .arr xs => ¬ xs.isEmpty
  | .obj fs => ¬ fs.isEmpty

/-- `_sanitize_response_text`: strip, remove a leading code fence
(regex `^```(?:json)?\s*`), remove a trailing fence (regex `\s*```$`),
strip again. -/
def sanitize_response_text (text : String) : String :=
  let t := pyStrip text.toList
  let t :=
    if ("```".toList).isPrefixOf t then
      let t1 := t.drop 3
      let t2 := if ("json".toList).isPrefixOf t1 then t1.drop 4 else t1
      let t3 := t2.dropWhile pyIsSpace
      let r := t3.reverse
      if ("```".toList).isPrefixOf r then ((r.drop 3).dropWhile pyIsSpace).reverse
      else t3
    else t
  String.mk (pyStrip t)

/-- Result of `re.search(r"\x7b.*\x7d", cleaned, re.DOTALL)`: the substring
from the first opening brace that is followed by some closing brace, up to the
last closing brace. -/
def braceSub : List Char → Option (List Char)
  | [] => none
  | c :: t =>
    if c = '{' ∧ t.contains '}' then
      some ('{' :: (t.reverse.dropWhile (fun d => d ≠ '}')).reverse)
    else braceSub t

/-- The candidate texts tried by `_parse_contacts_response`: the cleaned text,
then (when different from it) the largest brace-delimited substring. -/
def pcCandidates (text : String) : List String :=
  let cleaned := sanitize_response_text text
  match braceSub cleaned.toList with
  | some m => if String.mk m ≠ cleaned then [cleaned, String.mk m] else [cleaned]
  | none => [cleaned]

/-- `isinstance(parsed, dict) and isinstance(parsed.get("contacts"), list)`. -/
def getContactsArr : Json → Option (List Json)
  | .obj fs =>
    match jGet fs "contacts" with
    | some (.arr l) => some l
    | _ => none
  | _ => none

/-- The loop over parse candidates: a candidate that fails `json.loads` or
lacks a `contacts` list is skipped; a recovered `contacts` list of the wrong
length raises `ValueError` immediately; exhaustion raises `ValueError`. -/
def tryCandidates (loads : String → Option Json) (expected : Nat)
    (fallbackMsg : String) : List String → Except PyErr (List Json)
  | [] => .error (.valueError fallbackMsg)
  | c :: rest =>
    match loads c with
    | none => tryCandidates loads expected fallbackMsg rest
    | some parsed =>
      match getContactsArr parsed with
      | none => tryCandidates loads expected fallbackMsg rest
      | some l =>
        if l.length ≠ expected then
          .error (.valueError ("La IA devolvió " ++ toString l.length
            ++ " elementos, se esperaban " ++ toString expected ++ "."))
        else .ok l

/-- `_parse_contacts_response(text, expected=...)`. -/
def parse_contacts_response (loads : String → Option Json) (text : String)
    (expected : Nat) : Except PyErr (List Json) :=
  tryCandidates loads expected
    ("No se pudo extraer un JSON válido de la respuesta de la IA: "
      ++ String.mk (text.toList.take 200))
    (pcCandidates text)

/-! ## Completion-client oracle and the retry/bisection machine
(`_query_contacts_with_retry`, lines 113-181 of `enrichment.py`)

`ai_client.respond` (the completion client with its internal backoff) is an
external collaborator; its observable outcome for the `k`-th call of a run is
taken from an oracle `Nat → RespOutcome`: a returned text plus usage metadata,
a raised `RetryableError`, or any other raised exception. -/

/-- The three token counters of the `usage` metadata dict
(absent keys read as 0 via `usage.get(key, 0)`). -/
structure Usage where
  input_tokens : Int
  output_tokens : Int
  total_tokens : Int

deriving DecidableEq, Repr

/-- Observable outcome of one `respond(...)` call. -/
inductive RespOutcome where
  | success (content : String) (usage : Option Usage)
  | retryErr (msg : String)
  | otherErr (msg : String)

/-- The usage-combination step of the bisection branch: sum the three fields
of both halves; keep the combined dict only when some field is non-zero. -/
def combineUsage (a b : Option Usage) : Option Usage :=
  let ua := a.getD ⟨0, 0, 0⟩
  let ub := b.getD ⟨0, 0, 0⟩
  let t : Usage := ⟨ua.input_tokens + ub.input_tokens,
    ua.output_tokens + ub.output_tokens, ua.total_tokens + ub.total_tokens⟩
  if t.input_tokens ≠ 0 ∨ t.output_tokens ≠ 0 ∨ t.total_tokens ≠ 0 then some t
  else none

/-- Result of one `_query_contacts_with_retry` run paired with the index of
the next completion-service call. -/
abbrev QRes := Except PyErr (List Json × Option Usage) × Nat

/-- Sequencing of the two recursive half-calls of the bisection branch:
left half first, then the right half; results concatenated left-then-right,
usage summed; an exception from either half propagates. -/
def bisectCombine (l : QRes) (rf : Nat → QRes) : QRes :=
  match l with
  | (.error e, k1) => (.error e, k1)
  | (.ok (lrs, lm), k1) =>
    match rf k1 with
    | (.error e, k2) => (.error e, k2)
    | (.ok (rrs, rm), k2) => (.ok (lrs ++ rrs, combineUsage lm rm), k2)

/-- The code after the prompt loop: bisect into `chunk[:n//2]` and
`chunk[n//2:]` when more than one contact remains, else re-raise the last
exception. -/
def qrBisect (recur : List Contact → Nat → QRes) (chunk : List Contact)
    (last : PyErr) (k : Nat) : QRes :=
  if 1 < chunk.length then
    bisectCombine (recur (chunk.take (chunk.length / 2)) k)
      (fun k1 => recur (chunk.drop (chunk.length / 2)) k1)
  else (.error last, k)

/-- One level of `_query_contacts_with_retry`: try the primary prompt, on a
`RetryableError` from `respond` try the strict prompt, and on any remaining
failure fall through to bisection. A parse failure (`ValueError`) or any
non-retryable exception breaks out of the prompt loop at once (the `except
Exception` arm), so it skips the strict prompt. -/
def qrBody (loads : String → Option Json) (oracle : Nat → RespOutcome)
    (recur : List Contact → Nat → QRes) (chunk : List Contact) (k : Nat) :
    QRes :=
  if chunk.isEmpty then (.ok ([], none), k)
  else
    match oracle k with
    | .success content usage =>
      match parse_contacts_response loads content chunk.length with
      | .ok rs => (.ok (rs, usage), k + 1)
      | .error e => qrBisect recur chunk e (k + 1)
    | .otherErr m => qrBisect recur chunk (.other m) (k + 1)
    | .retryErr _ =>
      match oracle (k + 1) with
      | .success content usage =>
        match parse_contacts_response loads content chunk.length with
        | .ok rs => (.ok (rs, usage), k + 2)
        | .error e => qrBisect recur chunk e (k + 2)
      | .otherErr m2 => qrBisect recur chunk (.other m2) (k + 2)
      | .retryErr m2 => qrBisect recur chunk (.retryable m2) (k + 2)

/-- Fuel-indexed unfolding of the recursion; bisection halves strictly shrink
the chunk, so fuel `chunk.length` always suffices (`qrAux_fuel`). -/
def qrAux (loads : String → Option Json) (oracle : Nat → RespOutcome) :
    Nat → List Contact → Nat → QRes
  | 0, chunk, k =>
    if chunk.isEmpty then (.ok ([], none), k)
    else (.error (.runtimeError "fuel"), k)
  | fuel + 1, chunk, k => qrBody loads oracle (qrAux loads oracle fuel) chunk k

/-- `_query_contacts_with_retry(chunk)` starting at call index `k`. -/
def query_contacts_with_retry (loads : String → Option Json)
    (oracle : Nat → RespOutcome) (chunk : List Contact) (k : Nat) : QRes :=
  qrAux loads oracle chunk.length chunk k

/-! ## Enrichment orchestrator (`enrich_contacts`, lines 20-97 of
`enrichment.py`)

The run is parameterized by the `OPENAI_API_KEY` environment value, the
`OPENAI_ENRICH_MAX_CONTACTS` chunk-size setting, the `json.loads` oracle and
the completion-client oracle. The second component of the result counts the
completion-service calls that were made. -/

def apiKeyNote : String :=
  "OPENAI_API_KEY no está configurada; se devuelven los contactos sin enriquecer."

def chunkFailNote : String :=
  "La IA no pudo validar algunos contactos; se mantienen los datos detectados."

/-- Python falsiness of `os.getenv("OPENAI_API_KEY")`: unset or empty. -/
def pyFalsyKey : Option String → Bool
  | none => true
  | some s => s.isEmpty

/-- Python `(x or "").strip()` for an optional JSON field value: falsy values
give the empty string; a truthy non-string has no `.strip` and raises
`AttributeError`. -/
def pyOrEmptyStrip : Option Json → Except PyErr String
  | none => .ok ""
  | some j =>
    if jTruthy j then
      match j with
      | .str s => .ok (String.mk (pyStrip s.toList))
      | _ => .error (.attributeError "el valor no tiene el atributo strip")
    else .ok ""

def insertSorted (x : String) : List String → List String
  | [] => [x]
  | y :: ys => if x ≤ y then x :: y :: ys else y :: insertSorted x ys

/-- Python `sorted(...)` on a list of strings. -/
def sortStrings (l : List String) : List String := l.foldr insertSorted []

/-- Post-processing of one `(contact, extra)` pair from the zip loop
(lines 64-82 of `enrichment.py`). Returns the updated contact plus whether it
counted as invalid and whether it received a flag; raises `AttributeError`
when the service item is not an object or carries a truthy non-string field. -/
def enrichOne (contact : Contact) (extra : Json) :
    Except PyErr (Contact × Bool × Bool) :=
  match extra with
  | .obj fs =>
    let valido := jTruthy ((jGet fs "valido").getD .null)
    let c1 := { contact with validado := some valido }
    match pyOrEmptyStrip (jGet fs "descripcion") with
    | .error e => .error e
    | .ok desc =>
      let c2 := if ¬ desc.isEmpty
        then { c1 with descripcion_enriquecida := some desc } else c1
      match pyOrEmptyStrip (jGet fs "motivo") with
      | .error e => .error e
      | .ok motivo =>
        if ¬ motivo.isEmpty then
          let flags := sortStrings (((c2.flags.getD []) ++ [motivo]).eraseDups)
          .ok ({ c2 with flags := some flags }, !valido, true)
        else .ok (c2, !valido, false)
  | _ => .error (.attributeError "el elemento no tiene el atributo get")

/-- The `for contact, extra in zip(chunk, chunk_results)` loop, accumulating
enriched contacts and the invalid/flagged counters. -/
def enrichPairs : List (Contact × Json) → List Contact → Nat → Nat →
    Except PyErr (List Contact × Nat × Nat)
  | [], acc, inv, flg => .ok (acc, inv, flg)
  | (c, extra) :: rest, acc, inv, flg =>
    match enrichOne c extra with
    | .error e => .error e
    | .ok (c2, isInv, isFlg) =>
      enrichPairs rest (acc ++ [c2]) (inv + (if isInv then 1 else 0))
        (flg + (if isFlg then 1 else 0))

/-- Slicing loop `for start in range(0, len(contacts), step)`, fuelled by the
list length (the callers always pass `step ≥ 1`). -/
def chunksOfAux (step : Nat) : Nat → List Contact → List (List Contact)
  | 0, _ => []
  | _ + 1, [] => []
  | n + 1, l => l.take step :: chunksOfAux step n (l.drop step)

def chunksOf (step : Nat) (l : List Contact) : List (List Contact) :=
  chunksOfAux step l.length l

/-- The per-chunk loop of `enrich_contacts` plus the final note appending:
a chunk whose retry machine raises is replaced by its unmodified contacts with
a degradation note; a successful chunk goes through the zip post-processing,
whose own exceptions propagate outward (that loop is outside the `try`). -/
def enrichGo (loads : String → Option Json) (oracle : Nat → RespOutcome) :
    List (List Contact) → Nat → List Contact → List String → Nat → Nat →
    Except PyErr (List Contact × List String) × Nat
  | [], k, enr, notes, inv, flg =>
    let notes1 := if inv ≠ 0 then
        notes ++ [toString inv
          ++ " contacto(s) fueron marcados como no válidos por la IA."]
      else notes
    let notes2 := if flg ≠ 0 ∧ flg ≠ inv then
        notes1 ++ [toString flg
          ++ " contacto(s) recibieron observaciones adicionales."]
      else notes1
    (.ok (enr, notes2), k)
  | chunk :: rest, k, enr, notes, inv, flg =>
    match query_contacts_with_retry loads oracle chunk k with
    | (.error _, k2) =>
      enrichGo loads oracle rest k2 (enr ++ chunk)
        (notes ++ [chunkFailNote]) inv flg
    | (.ok (extras, _), k2) =>
      match enrichPairs (chunk.zip extras) [] 0 0 with
      | .error e => (.error e, k2)
      | .ok (ec, i, f) =>
        enrichGo loads oracle rest k2 (enr ++ ec) notes (inv + i) (flg + f)

/-- `enrich_contacts(contacts)`: empty input short-circuits before anything
else; a falsy `OPENAI_API_KEY` returns copies of the inputs with one
configuration note and no service call; otherwise the contacts are chunked
(`step = len(contacts)` when `OPENAI_ENRICH_MAX_CONTACTS <= 0`, else
`max(1, ...)`) and processed chunk by chunk. -/
def enrich_contacts (apiKey : Option String) (maxContactsPerRequest : Int)
    (loads : String → Option Json) (oracle : Nat → RespOutcome)
    (contacts : List Contact) :
    Except PyErr (List Contact × List String) × Nat :=
  if contacts.isEmpty then (.ok ([], []), 0)
  else if pyFalsyKey apiKey then (.ok (contacts, [apiKeyNote]), 0)
  else
    let step : Nat := if maxContactsPerRequest ≤ 0 then contacts.length
      else (max 1 maxContactsPerRequest).toNat
    enrichGo loads oracle (chunksOf step contacts) 0 [] [] 0 0

/-! ## Regex engine and the free-text contact miner
(`EMAIL_RE`, `PHONE_RE` and `_extract_contacts_from_html`, `scraper.py`)

A small backtracking matcher with Python `re` semantics for the constructs the
two patterns use: leftmost match, greedy quantifiers, left-biased alternation.
The two patterns are hand-compiled from the source regexes; the digit
lookarounds of `PHONE_RE` sit at the pattern's ends and are handled in the
match wrapper. -/

inductive RE where
  | eps
  | cls (p : Char → Bool)
  | cat (a b : RE)
  | alt (a b : RE)
  | star (p : Char → Bool)

/-- Greedy star over a character class: consume as much as possible first,
backtracking one character at a time through the continuation. -/
def starMatch (p : Char → Bool) :
    List Char → (List Char → Option (List Char)) → Option (List Char)
  | [], k => k []
  | c :: rest, k =>
    if p c then
      match starMatch p rest k with
      | some r => some r
      | none => k (c :: rest)
    else k (c :: rest)

/-- Continuation-passing matcher; the continuation receives the unconsumed
suffix and may reject it (which forces backtracking), mirroring a trailing
lookahead. -/
def reMatch : RE → List Char → (List Char → Option (List Char)) →
    Option (List Char)
  | .eps, s, k => k s
  | .cls _, [], _ => none
  | .cls p, c :: s, k => if p c then k s else none
  | .cat a b, s, k => reMatch a s (fun s1 => reMatch b s1 k)
  | .alt a b, s, k =>
    match reMatch a s k with
    | some r => some r
    | none => reMatch b s k
  | .star p, s, k => starMatch p s k

/-- Single literal character. -/
def lit (c : Char) : RE := .cls (fun d => d = c)

/-- Greedy `X?`. -/
def opt (r : RE) : RE := .alt r .eps

/-- Greedy `X{0,n}`. -/
def atMost (r : RE) : Nat → RE
  | 0 => .eps
  | n + 1 => opt (.cat r (atMost r n))

/-- Greedy `X{lo,hi}` (`hi ≥ lo`). -/
def repeatRange (r : RE) (lo hi : Nat) : RE :=
  (List.replicate lo r).foldr RE.cat (atMost r (hi - lo))

/-- Class `[\s.-]` from `PHONE_RE`. -/
def sepC (c : Char) : Bool := pyIsSpace c ∨ c = '.' ∨ c = '-'

/-- `PHONE_RE` without its two digit lookarounds:
`(?:\+\d{1,3}\s*)? (?:\(?\d{2,4}\)?[\s.-]*)? \d{3,4}[\s.-]*\d{3,4}
(?:[\s.-]*\d{2,4})?`. -/
def phoneRE : RE :=
  .cat (opt (.cat (lit '+')
    (.cat (repeatRange (.cls Char.isDigit) 1 3) (.star pyIsSpace))))
  (.cat (opt (.cat (opt (lit '('))
    (.cat (repeatRange (.cls Char.isDigit) 2 4)
    (.cat (opt (lit ')')) (.star sepC)))))
  (.cat (repeatRange (.cls Char.isDigit) 3 4)
  (.cat (.star sepC)
  (.cat (repeatRange (.cls Char.isDigit) 3 4)
  (opt (.cat (.star sepC) (repeatRange (.cls Char.isDigit) 2 4)))))))

/-- Class `[A-Z0-9._%+-]` of `EMAIL_RE` (compiled with `re.I`). -/
def emailLocalC (c : Char) : Bool :=
  c.isAlpha ∨ c.isDigit ∨ c = '.' ∨ c = '_' ∨ c = '%' ∨ c = '+' ∨ c = '-'

/-- Class `[A-Z0-9.-]` of `EMAIL_RE` (compiled with `re.I`). -/
def emailDomC (c : Char) : Bool := c.isAlpha ∨ c.isDigit ∨ c = '.' ∨ c = '-'

/-- `EMAIL_RE = [A-Z0-9._%+-]+@[A-Z0-9.-]+\.[A-Z]{2,}` with `re.I`. -/
def emailRE : RE :=
  .cat (.cls emailLocalC) (.cat (.star emailLocalC)
  (.cat (lit '@')
  (.cat (.cls emailDomC) (.cat (.star emailDomC)
  (.cat (lit '.')
  (.cat (.cls Char.isAlpha) (.cat (.cls Char.isAlpha) (.star Char.isAlpha))))))))

/-- Try `PHONE_RE` at the current position: the `(?<!\d)` lookbehind checks
the previous character, the `(?!\d)` lookahead is enforced through the
continuation (so the engine backtracks over it exactly as Python does).
Returns the number of characters matched. -/
def phoneMatchAt (prev : Option Char) (s : List Char) : Option Nat :=
  if (prev.map Char.isDigit).getD false then none
  else
    match reMatch phoneRE s (fun rem =>
        if (rem.head?.map Char.isDigit).getD false then none else some rem) with
    | some rem => some (s.length - rem.length)
    | none => none

/-- Try `EMAIL_RE` at the current position. -/
def emailMatchAt (_prev : Option Char) (s : List Char) : Option Nat :=
  match reMatch emailRE s (fun rem => some rem) with
  | some rem => some (s.length - rem.length)
  | none => none

/-- `finditer`: scan left to right, yielding non-overlapping matches as
`(start, end, matched characters)`; scanning resumes at each match's end.
Fuelled by the text length (each step consumes at least one character; the
zero-width arm is unreachable for the two patterns here, which cannot match
the empty string, and mirrors Python's advance-by-one rule). -/
def findAllAux (matchAt : Option Char → List Char → Option Nat) :
    Nat → Option Char → Nat → List Char → List (Nat × Nat × List Char)
  | 0, _, _, _ => []
  | fuel + 1, prev, i, s =>
    match matchAt prev s with
    | some n =>
      if n = 0 then
        match s with
        | [] => [(i, i, [])]
        | c :: t => (i, i, []) :: findAllAux matchAt fuel (some c) (i + 1) t
      else
        (i, i + n, s.take n) ::
          findAllAux matchAt fuel (s.take n).getLast? (i + n) (s.drop n)
    | none =>
      match s with
      | [] => []
      | c :: t => findAllAux matchAt fuel (some c) (i + 1) t

def findAll (matchAt : Option Char → List Char → Option Nat)
    (s : List Char) : List (Nat × Nat × List Char) :=
  findAllAux matchAt (s.length + 1) none 0 s

/-- `_valid_phone_digits`: between 7 and 15 digits inclusive. -/
def valid_phone_digits (digits : List Char) : Bool :=
  7 ≤ digits.length ∧ digits.length ≤ 15

/-- `_normalize_phone`: strip non-digits; re-prefix `+` when the stripped
token begins with `+`. -/
def normalize_phone (phone : List Char) : String :=
  let digits := phone.filter Char.isDigit
  if (pyStrip phone).head? = some '+' then String.mk ('+' :: digits)
  else String.mk digits

/-- `re.sub(r"\s+", " ", ...)`: collapse each whitespace run to one space. -/
def collapseWsAux : Bool → List Char → List Char
  | _, [] => []
  | prevWs, c :: t =>
    if pyIsSpace c then
      if prevWs then collapseWsAux true t else ' ' :: collapseWsAux true t
    else c :: collapseWsAux false t

def collapseWs (cs : List Char) : List Char := collapseWsAux false cs

/-- `value.lower() in cleaned.lower()`. -/
def lowerContains (hay val : List Char) : Bool :=
  listContainsSub (lowerList hay) (lowerList val)

/-- `_trim_snippet` with its default `max_len = 140` (never overridden). -/
def trim_snippet (snippet value : List Char) : String :=
  let cleaned := collapseWs snippet
  if lowerContains cleaned value ∧ cleaned.length ≤ 140 then String.mk cleaned
  else if cleaned.length > 140 then
    String.mk (((cleaned.take 137).reverse.dropWhile pyIsSpace).reverse) ++ "..."
  else if ¬ cleaned.isEmpty then String.mk cleaned
  else "Encontrado en " ++ String.mk value

/-- `_text_context`: a ±90-character window around the match, stripped and
trimmed. -/
def text_context (text : List Char) (start stop : Nat) (value : List Char) :
    String :=
  let snippetEnd := min text.length (stop + 90)
  let snippet := pyStrip ((text.take snippetEnd).drop (start - 90))
  trim_snippet snippet value

/-- The free-text passes of `_extract_contacts_from_html` (lines 195-225 of
`scraper.py`) over the page's visible text: the e-mail scan then the phone
scan, deduplicating into the page dict. For markup with no `mailto:`/`tel:`
anchors — such as a plain-text page — the anchor pass contributes nothing and
extraction is exactly these two passes starting from an empty dict. -/
def extract_contacts_from_text (text : List Char) (pageUrl : String) :
    List Contact :=
  let m1 := (findAll emailMatchAt text).foldl
    (fun m f =>
      let email := f.2.2
      let key := ("correo", String.mk (lowerList email))
      if (m.lookup key).isSome then m
      else m ++ [(key,
        { tipo := "correo", valor := String.mk email,
          descripcion := text_context text f.1 f.2.1 email,
          url := pageUrl })])
    ([] : List ((String × String) × Contact))
  let m2 := (findAll phoneMatchAt text).foldl
    (fun m f =>
      let phone := f.2.2
      let digits := phone.filter Char.isDigit
      if ¬ valid_phone_digits digits then m
      else
        let normalized := normalize_phone phone
        let key := ("telefono", normalized)
        if (m.lookup key).isSome then m
        else m ++ [(key,
          { tipo := "telefono", valor := normalized,
            descripcion := text_context text f.1 f.2.1 phone,
            url := pageUrl })])
    m1
  m2.map Prod.snd

/-! ## Concrete instances used by counterexamples and witnesses -/

/-- The candidate-link list carried by a fetch outcome. -/
def linkCandsOf : FetchOutcome → List String
  | .exc _ => []
  | .resp _ _ _ cands => cands

/-- A site whose seed page yields three candidate links while
`max_links_per_page` is 2; all other pages are unreachable. -/
def settings3 : SettingsM :=
  { baseUrl := "https://s", maxPages := 5, maxDepth := 2, maxLinksPerPage := 2 }

def oracle3 : String → FetchOutcome := fun u =>
  if u = "https://s" then
    .resp 200 "text/html" [] ["https://s/a", "https://s/b", "https://s/c"]
  else .exc "down"

/-- A site whose seed yields two links and whose second page fails with a
transport error, with a page budget of 2. -/
def settings4 : SettingsM :=
  { baseUrl := "https://s", maxPages := 2, maxDepth := 2, maxLinksPerPage := 5 }

def oracle4 : String → FetchOutcome := fun u =>
  if u = "https://s" then
    .resp 200 "text/html" [] ["https://s/a", "https://s/b"]
  else .exc "timeout"

/-- A seed responding 403 with nothing else reachable (spec Scenario C). -/
def settingsW : SettingsM :=
  { baseUrl := "https://s", maxPages := 3, maxDepth := 2, maxLinksPerPage := 5 }

def oracleW : String → FetchOutcome := fun _ => .resp 403 "text/html" [] []

/-- Sample contacts. -/
def cA : Contact :=
  { tipo := "correo", valor := "a@b.co", descripcion := "d1", url := "https://s" }

def cB : Contact :=
  { tipo := "correo", valor := "c@d.co", descripcion := "d2", url := "https://s" }

/-- A `json.loads` oracle that fails on every text. -/
def loadsNone : String → Option Json := fun _ => none

/-- A completion client that raises `RetryableError` on every call. -/
def oracleRetry : Nat → RespOutcome := fun _ => .retryErr "saturado"

/-- A `json.loads` oracle for the single text `{"contacts":[1]}`: valid JSON
whose `contacts` array holds the number 1 instead of an object. -/
def loads2 : String → Option Json := fun t =>
  if t = "\x7b\"contacts\":[1]\x7d" then some (.obj [("contacts", .arr [.num 1])])
  else none

/-- A completion client that always returns the text `{"contacts":[1]}`. -/
def oracle2 : Nat → RespOutcome := fun _ =>
  .success "\x7b\"contacts\":[1]\x7d" none

/-- A `json.loads` oracle for the single text `{"contacts":[]}`. -/
def loads7 : String → Option Json := fun t =>
  if t = "\x7b\"contacts\":[]\x7d" then some (.obj [("contacts", .arr [])])
  else none

/-- Initial state used to witness the step-level statement of C3. -/
def stW : CrawlState :=
  { queue := [("https://s", 0)], visited := [], queued := ["https://s"],
    contactsMap := [], restricted := false, visitedPages := 0,
    exploredLinks := 0, errors := [] }

/-- A failed attempt of one prompt: the completion client raised (retryably
or not), or it returned a text that fails the parsing contract. -/
def attemptFails (loads : String → Option Json) (oracle : Nat → RespOutcome)
    (k n : Nat) : Prop :=
  (∃ m, oracle k = .retryErr m) ∨ (∃ m, oracle k = .otherErr m) ∨
  (∃ content usage e, oracle k = .success content usage ∧
    parse_contacts_response loads content n = .error e)

/-! ## Lemmas -/

theorem enqueueLinks_fst_length_le (depth : Nat) (visited : List String) :
    ∀ (ls : List String) (q : List (String × Nat)) (qd : List String),
      ((enqueueLinks depth visited ls q qd).1).length ≤ q.length + ls.length := by
  intro ls
  induction ls with
  | nil => intro q qd; simp [enqueueLinks]
  | cons l t ih =>
    intro q qd
    by_cases h : ¬ visited.contains l ∧ ¬ qd.contains l
    · have := ih (q ++ [(l, depth)]) (l :: qd)
      simp only [enqueueLinks, if_pos h]
      simp only [List.length_append, List.length_cons, List.length_nil] at this ⊢
      omega
    · have := ih q qd
      simp only [enqueueLinks, if_neg h, List.length_cons]
      omega

theorem stepBody_measure_lt (s : SettingsM) (o : String → FetchOutcome)
    (st : CrawlState) (h : crawlGuard s st = true) :
    crawlMeasure s (stepBody s o st) < crawlMeasure s st := by
  have hq : ¬ st.queue.isEmpty := by
    intro hc
    simp [crawlGuard, hc] at h
  have hv : st.visited.length < s.maxPages := by
    simp [crawlGuard] at h
    exact h.2
  obtain ⟨⟨url, depth⟩, rest, hqe⟩ : ∃ ud rest, st.queue = ud :: rest := by
    cases hql : st.queue with
    | nil => rw [hql] at hq; simp at hq
    | cons a b => exact ⟨a, b, rfl⟩
  -- measure arithmetic helper
  have hmul : (s.maxPages - st.visited.length) * (s.maxLinksPerPage + 2)
      = (s.maxPages - (st.visited.length + 1)) * (s.maxLinksPerPage + 2)
        + (s.maxLinksPerPage + 2) := by
    have : s.maxPages - st.visited.length
        = (s.maxPages - (st.visited.length + 1)) + 1 := by omega
    rw [this, Nat.succ_mul]
  unfold stepBody
  rw [hqe]
  by_cases hmem : st.visited.contains (normalizeUrl url)
  · simp only [if_pos hmem]
    unfold crawlMeasure
    rw [hqe]
    simp only [List.length_cons]
    omega
  · simp only [if_neg hmem]
    cases ho : o (normalizeUrl url) with
    | exc msg =>
      unfold crawlMeasure
      rw [hqe]
      simp only [List.length_cons]
      rw [hmul]
      omega
    | resp status ctype pcs cands =>
      by_cases hr : restrictedStatus.contains status
      · simp only [if_pos hr]
        unfold crawlMeasure
        rw [hqe]
        simp only [List.length_cons]
        rw [hmul]
        omega
      · simp only [if_neg hr]
        by_cases hct : ¬ strContainsSub ctype "text/html"
        · simp only [if_pos hct]
          unfold crawlMeasure
          rw [hqe]
          simp only [List.length_cons]
          rw [hmul]
          omega
        · simp only [if_neg hct]
          by_cases hd : depth < s.maxDepth
          · simp only [if_pos hd]
            have hlen := enqueueLinks_fst_length_le (depth + 1)
              ((normalizeUrl url) :: st.visited)
              (collect_links cands s.maxLinksPerPage) rest st.queued
            have htake : (collect_links cands s.maxLinksPerPage).length
                ≤ s.maxLinksPerPage := by
              unfold collect_links
              exact List.length_take_le s.maxLinksPerPage cands
            unfold crawlMeasure
            rw [hqe]
            simp only [List.length_cons]
            rw [hmul]
            omega
          · simp only [if_neg hd]
            unfold crawlMeasure
            rw [hqe]
            simp only [List.length_cons]
            rw [hmul]
            omega

theorem crawlLoop_guard_false (s : SettingsM) (o : String → FetchOutcome) :
    ∀ (n : Nat) (st : CrawlState), crawlMeasure s st ≤ n →
      crawlGuard s (crawlLoop s o n st) = false := by
  intro n
  induction n with
  | zero =>
    intro st hm
    have hql : st.queue.length = 0 := by
      unfold crawlMeasure at hm
      omega
    have : st.queue.isEmpty := by
      cases hc : st.queue with
      | nil => rfl
      | cons a b => rw [hc] at hql; simp at hql
    simp [crawlLoop, crawlGuard, this]
  | succ n ih =>
    intro st hm
    by_cases hg : crawlGuard s st
    · have hlt := stepBody_measure_lt s o st hg
      have : crawlMeasure s (stepBody s o st) ≤ n := by omega
      simp only [crawlLoop, if_pos hg]
      exact ih _ this
    · simp only [crawlLoop, if_neg hg]
      exact Bool.eq_false_iff.mpr hg

theorem crawlLoop_inv (s : SettingsM) (o : String → FetchOutcome)
    (I : CrawlState → Prop)
    (hstep : ∀ st, crawlGuard s st = true → I st → I (stepBody s o st)) :
    ∀ (n : Nat) (st : CrawlState), I st → I (crawlLoop s o n st) := by
  intro n
  induction n with
  | zero => intro st hI; exact hI
  | succ n ih =>
    intro st hI
    by_cases hg : crawlGuard s st
    · simp only [crawlLoop, if_pos hg]
      exact ih _ (hstep st hg hI)
    · simp only [crawlLoop, if_neg hg]
      exact hI

/-- Effect of one loop iteration on the `restricted_detected` invariant. -/
theorem stepBody_restricted (s : SettingsM) (o : String → FetchOutcome)
    (st : CrawlState)
    (hI : st.restricted = st.visited.any (fun u => isRestrictedOut (o u))) :
    (stepBody s o st).restricted
      = (stepBody s o st).visited.any (fun u => isRestrictedOut (o u)) := by
  cases hqe : st.queue with
  | nil =>
    unfold stepBody
    rw [hqe]
    exact hI
  | cons ud rest =>
    obtain ⟨url, depth⟩ := ud
    unfold stepBody
    rw [hqe]
    by_cases hmem : st.visited.contains (normalizeUrl url)
    · simp only [if_pos hmem]
      exact hI
    · simp only [if_neg hmem]
      cases ho : o (normalizeUrl url) with
      | exc msg =>
        simp only [ho]
        show st.restricted
          = (normalizeUrl url :: st.visited).any (fun u => isRestrictedOut (o u))
        simp only [List.any_cons, ho, isRestrictedOut, Bool.false_or]
        exact hI
      | resp status ctype pcs cands =>
        simp only [ho]
        have hcons : (normalizeUrl url :: st.visited).any
            (fun u => isRestrictedOut (o u))
            = (isRestrictedOut (FetchOutcome.resp status ctype pcs cands)
                || st.visited.any (fun u => isRestrictedOut (o u))) := by
          simp only [List.any_cons, ho]
        by_cases hr : restrictedStatus.contains status
        · simp only [if_pos hr]
          show true
            = (normalizeUrl url :: st.visited).any (fun u => isRestrictedOut (o u))
          rw [hcons]
          simp only [isRestrictedOut, hr, Bool.true_or]
        · simp only [if_neg hr]
          have hskip : (normalizeUrl url :: st.visited).any
              (fun u => isRestrictedOut (o u))
              = st.visited.any (fun u => isRestrictedOut (o u)) := by
            rw [hcons]
            simp only [isRestrictedOut, hr, Bool.false_or]
          by_cases hct : strContainsSub ctype "text/html"
          · simp only [if_neg (not_not_intro hct)]
            by_cases hd : depth < s.maxDepth
            · simp only [if_pos hd]
              show st.restricted = (normalizeUrl url :: st.visited).any _
              rw [hskip]
              exact hI
            · simp only [if_neg hd]
              show st.restricted = (normalizeUrl url :: st.visited).any _
              rw [hskip]
              exact hI
          · simp only [if_pos hct]
            show st.restricted = (normalizeUrl url :: st.visited).any _
            rw [hskip]
            exact hI

/-- The `restricted_detected` flag at the end of the loop holds exactly when
some fetched (visited) page responded with a restricted status code. -/
theorem restricted_inv (s : SettingsM) (o : String → FetchOutcome) :
    (runFull s o).restricted
      = (runFull s o).visited.any (fun u => isRestrictedOut (o u)) := by
  unfold runFull
  apply crawlLoop_inv s o
    (fun st => st.restricted = st.visited.any (fun u => isRestrictedOut (o u)))
  · intro st _ hI
    exact stepBody_restricted s o st hI
  · simp [initState]

theorem foldl_add_const (p : String → Bool) (c : Int) :
    ∀ (l : List String) (a : Int),
      l.foldl (fun sc kw => if p kw then sc + c else sc) a
        = a + c * ((l.filter p).length : Int) := by
  intro l
  induction l with
  | nil => intro a; simp
  | cons kw t ih =>
    intro a
    by_cases hk : p kw
    · simp only [List.foldl_cons, if_pos hk, List.filter_cons, hk, ite_true,
        List.length_cons, ih]
      push_cast
      ring
    · simp only [List.foldl_cons, if_neg hk, List.filter_cons, hk]
      simp only [Bool.false_eq_true, ite_false, ih]

theorem foldl_sub_const (p : String → Bool) (c : Int) :
    ∀ (l : List String) (a : Int),
      l.foldl (fun sc kw => if p kw then sc - c else sc) a
        = a - c * ((l.filter p).length : Int) := by
  intro l
  induction l with
  | nil => intro a; simp
  | cons kw t ih =>
    intro a
    by_cases hk : p kw
    · simp only [List.foldl_cons, if_pos hk, List.filter_cons, hk, ite_true,
        List.length_cons, ih]
      push_cast
      ring
    · simp only [List.foldl_cons, if_neg hk, List.filter_cons, hk]
      simp only [Bool.false_eq_true, ite_false, ih]

theorem tryCandidates_ok (loads : String → Option Json) (expected : Nat)
    (fallbackMsg : String) :
    ∀ (cands : List String) (l : List Json),
      tryCandidates loads expected fallbackMsg cands = .ok l →
      l.length = expected ∧
        ∃ c ∈ cands, ∃ parsed, loads c = some parsed ∧
          getContactsArr parsed = some l := by
  intro cands
  induction cands with
  | nil => intro l h; simp [tryCandidates] at h
  | cons c rest ih =>
    intro l h
    unfold tryCandidates at h
    cases hl : loads c with
    | none =>
      simp only [hl] at h
      obtain ⟨hlen, d, hd, hrest⟩ := ih l h
      exact ⟨hlen, d, List.mem_cons_of_mem c hd, hrest⟩
    | some parsed =>
      simp only [hl] at h
      cases hg : getContactsArr parsed with
      | none =>
        simp only [hg] at h
        obtain ⟨hlen, d, hd, hrest⟩ := ih l h
        exact ⟨hlen, d, List.mem_cons_of_mem c hd, hrest⟩
      | some l2 =>
        simp only [hg] at h
        by_cases hlen : l2.length ≠ expected
        · rw [if_pos hlen] at h
          exact absurd h (by simp)
        · rw [if_neg hlen] at h
          have hll : l2 = l := by
            simpa using h
          subst hll
          exact ⟨by omega, c, List.mem_cons_self c rest,
            parsed, hl, hg⟩

theorem tryCandidates_error (loads : String → Option Json) (expected : Nat)
    (fallbackMsg : String) :
    ∀ (cands : List String) (e : PyErr),
      tryCandidates loads expected fallbackMsg cands = .error e →
      ∃ m, e = .valueError m := by
  intro cands
  induction cands with
  | nil =>
    intro e h
    refine ⟨fallbackMsg, ?_⟩
    simpa [tryCandidates] using h.symm
  | cons c rest ih =>
    intro e h
    unfold tryCandidates at h
    cases hl : loads c with
    | none =>
      simp only [hl] at h
      exact ih e h
    | some parsed =>
      simp only [hl] at h
      cases hg : getContactsArr parsed with
      | none =>
        simp only [hg] at h
        exact ih e h
      | some l2 =>
        simp only [hg] at h
        by_cases hlen : l2.length ≠ expected
        · rw [if_pos hlen] at h
          injection h with h2
          exact ⟨_, h2.symm⟩
        · rw [if_neg hlen] at h
          exact absurd h (by simp)

theorem qrBisect_congr (r1 r2 : List Contact → Nat → QRes)
    (chunk : List Contact) (last : PyErr) (k : Nat)
    (h : ∀ c k2, c.length < chunk.length → r1 c k2 = r2 c k2) :
    qrBisect r1 chunk last k = qrBisect r2 chunk last k := by
  unfold qrBisect
  by_cases hlen : 1 < chunk.length
  · have htake : (chunk.take (chunk.length / 2)).length < chunk.length := by
      rw [List.length_take]
      omega
    have hdrop : (chunk.drop (chunk.length / 2)).length < chunk.length := by
      rw [List.length_drop]
      omega
    rw [if_pos hlen, if_pos hlen, h _ k htake]
    exact congrArg (bisectCombine _) (funext fun k1 => h _ k1 hdrop)
  · rw [if_neg hlen, if_neg hlen]

theorem qrBody_congr (loads : String → Option Json) (oracle : Nat → RespOutcome)
    (r1 r2 : List Contact → Nat → QRes) (chunk : List Contact) (k : Nat)
    (h : ∀ c k2, c.length < chunk.length → r1 c k2 = r2 c k2) :
    qrBody loads oracle r1 chunk k = qrBody loads oracle r2 chunk k := by
  unfold qrBody
  by_cases he : chunk.isEmpty
  · rw [if_pos he, if_pos he]
  · rw [if_neg he, if_neg he]
    cases ho : oracle k with
    | success content usage =>
      cases hp : parse_contacts_response loads content chunk.length with
      | ok rs => simp only [hp]
      | error e =>
        simp only [hp]
        exact qrBisect_congr r1 r2 chunk e (k + 1) h
    | otherErr m => exact qrBisect_congr r1 r2 chunk (.other m) (k + 1) h
    | retryErr m =>
      cases ho2 : oracle (k + 1) with
      | success content usage =>
        cases hp : parse_contacts_response loads content chunk.length with
        | ok rs => simp only [ho2, hp]
        | error e =>
          simp only [ho2, hp]
          exact qrBisect_congr r1 r2 chunk e (k + 2) h
      | otherErr m2 =>
        simp only [ho2]
        exact qrBisect_congr r1 r2 chunk (.other m2) (k + 2) h
      | retryErr m2 =>
        simp only [ho2]
        exact qrBisect_congr r1 r2 chunk (.retryable m2) (k + 2) h

/-- Any fuel at least `chunk.length` computes the same result as fuel
`chunk.length`: the recursion is fuel-insensitive once the fuel is
sufficient. -/
theorem qrAux_fuel (loads : String → Option Json) (oracle : Nat → RespOutcome) :
    ∀ (bound : Nat) (chunk : List Contact) (fuel k : Nat),
      chunk.length ≤ bound → chunk.length ≤ fuel →
      qrAux loads oracle fuel chunk k
        = qrAux loads oracle chunk.length chunk k := by
  intro bound
  induction bound with
  | zero =>
    intro chunk fuel k hb hf
    have hnil : chunk = [] := List.length_eq_zero.mp (Nat.le_zero.mp hb)
    subst hnil
    cases fuel with
    | zero => rfl
    | succ f =>
      show qrBody loads oracle (qrAux loads oracle f) [] k = _
      rw [qrBody]
      simp [qrAux]
  | succ bound ih =>
    intro chunk fuel k hb hf
    cases hc : chunk with
    | nil =>
      subst hc
      cases fuel with
      | zero => rfl
      | succ f =>
        show qrBody loads oracle (qrAux loads oracle f) [] k = _
        rw [qrBody]
        simp [qrAux]
    | cons a t =>
      subst hc
      have hlen : (a :: t).length = t.length + 1 := List.length_cons a t
      obtain ⟨f, rfl⟩ : ∃ f, fuel = f + 1 := by
        cases fuel with
        | zero => rw [hlen] at hf; omega
        | succ f => exact ⟨f, rfl⟩
      show qrBody loads oracle (qrAux loads oracle f) (a :: t) k
        = qrBody loads oracle (qrAux loads oracle t.length) (a :: t) k
      apply qrBody_congr
      intro c k2 hlt
      rw [hlen] at hlt hb hf
      have h1 : qrAux loads oracle f c k2
          = qrAux loads oracle c.length c k2 :=
        ih c f k2 (by omega) (by omega)
      have h2 : qrAux loads oracle t.length c k2
          = qrAux loads oracle c.length c k2 :=
        ih c t.length k2 (by omega) (by omega)
      rw [h1, h2]

theorem classify_spec (r : Bool) (cs : List Contact) :
    (classify r cs = "OK" ↔ cs ≠ []) ∧
    (cs = [] →
      ((classify r cs = "RESTRINGIDO" ↔ r = true) ∧
       (classify r cs = "NO_ENCONTRADO" ↔ r = false))) := by
  by_cases hc : cs = []
  · subst hc
    cases r <;> decide
  · have h1 : ¬ (r = true ∧ cs = []) := fun h => hc h.2
    unfold classify
    rw [if_neg h1, if_neg hc]
    exact ⟨by simp [hc], fun h => absurd h hc⟩

/-! ## Claim theorems -/

/-- C10: `enrich_contacts` applied to an empty contact sequence returns an
empty contact list and an empty notes list, makes no completion-service call,
and does not check the credential: the result is the same for every API-key
value, including an unset one, and carries no configuration note. -/
theorem C10_empty_input (apiKey : Option String) (maxPer : Int)
    (loads : String → Option Json) (oracle : Nat → RespOutcome) :
    enrich_contacts apiKey maxPer loads oracle [] = (.ok ([], []), 0) := rfl

/-- C6 counterexample: with the API key unset and an *empty* input,
`enrich_contacts` returns no configuration note at all (the empty-input path
runs before the credential check), so the claim's "exactly one configuration
note" fails at N = 0. -/
theorem C6_counterexample_empty_input :
    enrich_contacts none 0 loadsNone oracleRetry [] = (.ok ([], []), 0) ∧
    (enrich_contacts none 0 loadsNone oracleRetry []).1 ≠ .ok ([], [apiKeyNote]) := by
  decide

/-- C6 (amended): for every *non-empty* input of N contacts, when the API key
is unset or empty, `enrich_contacts` returns the N contacts unchanged (the
dict-copies equal the originals) plus exactly the one configuration note, and
makes no completion-service call. -/
theorem C6_missing_key (apiKey : Option String) (maxPer : Int)
    (loads : String → Option Json) (oracle : Nat → RespOutcome)
    (contacts : List Contact) (hne : contacts ≠ [])
    (hkey : pyFalsyKey apiKey = true) :
    enrich_contacts apiKey maxPer loads oracle contacts
      = (.ok (contacts, [apiKeyNote]), 0) := by
  have h1 : contacts.isEmpty = false := by
    cases contacts with
    | nil => exact absurd rfl hne
    | cons a t => rfl
  unfold enrich_contacts
  rw [if_neg (by rw [h1]; exact Bool.false_ne_true), if_pos hkey]

theorem C6_missing_key_witness :
    enrich_contacts none 0 loadsNone oracleRetry [cA]
      = (.ok ([cA], [apiKeyNote]), 0) :=
  C6_missing_key none 0 loadsNone oracleRetry [cA] (by decide) (by decide)

/-- C2 (evaluated at the failing input): with the API key set and a
completion service answering the valid JSON `{"contacts":[1]}` for a
one-contact batch — right array length, but the item is a number, not an
object — `enrich_contacts` raises an `AttributeError` outward from the zip
post-processing loop (which sits outside the `try`), instead of returning the
original contact with a note as the claim and spec §7 require. -/
theorem C2_postprocessing_raises :
    enrich_contacts (some "sk-test") 0 loads2 oracle2 [cA]
      = (.error (.attributeError "el elemento no tiene el atributo get"), 1) := by
  decide

/-- C7: for every `json.loads` behaviour, response text and expected batch
size, `_parse_contacts_response` succeeds only when one of the two candidate
texts (the fence-stripped text or its largest brace-delimited substring)
parses to a JSON object whose `contacts` field is an array of exactly the
expected length; and every failure is a `ValueError` (a validation failure),
never a `RetryableError` (so no network retry is triggered). -/
theorem C7_parse_contract (loads : String → Option Json) (text : String)
    (expected : Nat) :
    (∀ l, parse_contacts_response loads text expected = .ok l →
      l.length = expected ∧
        ∃ c ∈ pcCandidates text, ∃ parsed, loads c = some parsed ∧
          getContactsArr parsed = some l) ∧
    (∀ e, parse_contacts_response loads text expected = .error e →
      ∃ m, e = .valueError m) :=
  ⟨fun l h => tryCandidates_ok loads expected _ (pcCandidates text) l h,
   fun e h => tryCandidates_error loads expected _ (pcCandidates text) e h⟩

theorem C7_parse_contract_witness :
    ([] : List Json).length = 0 ∧
      ∃ c ∈ pcCandidates "\x7b\"contacts\":[]\x7d", ∃ parsed,
        loads7 c = some parsed ∧ getContactsArr parsed = some [] :=
  (C7_parse_contract loads7 "\x7b\"contacts\":[]\x7d" 0).1 [] rfl

/-- C8 counterexample: for the path `/contact/contact` (no query string) the
code's score is 6 — the keyword `contact` is counted once because scoring
tests keyword *membership* — while the claim's per-occurrence sum gives 12. -/
theorem C8_counterexample_keyword_occurrences :
    scoreLink [] ("/contact/contact").toList = 6 ∧
    claimScore [] ("/contact/contact").toList = 12 := by
  decide

/-- C8 (amended): the link score equals the sum of −1 if the URL has a query
string, −1 if the path splits into more than 5 `/`-separated segments, +6 for
each *distinct* priority keyword occurring in the lower-cased path, −2 for
each *distinct* penalty keyword occurring in it (each keyword counted once no
matter how many occurrences), and `max(0, 12 − length of the lower-cased
path)` as a short-path bonus. -/
theorem C8_score_formula (query path : List Char) :
    scoreLink query path =
      (if ¬ query.isEmpty then (-1 : Int) else 0)
      + (if pySplitCount '/' path > 5 then (-1 : Int) else 0)
      + 6 * (((priority_keywords.filter
          (fun kw => listContainsSub (lowerList path) kw.toList)).length : Int))
      - 2 * (((penalty_keywords.filter
          (fun kw => listContainsSub (lowerList path) kw.toList)).length : Int))
      + max 0 (12 - ((lowerList path).length : Int)) := by
  unfold scoreLink
  simp only [foldl_add_const, foldl_sub_const]
  split_ifs <;> ring

/-- C9: extracting contacts from a page whose visible text is
`"Call us at +1 415-555-0123 for support"` yields exactly one contact of kind
phone (`tipo = "telefono"`), with value `"+14155550123"` — all non-digits
stripped and the `+` re-prefixed because the token began with `+` — and with
the ±90-character window around the phrase (here the whole text) as its
description. -/
theorem C9_scenario_phone :
    extract_contacts_from_text
        ("Call us at +1 415-555-0123 for support").toList "https://example.com"
      = [{ tipo := "telefono", valor := "+14155550123",
           descripcion := "Call us at +1 415-555-0123 for support",
           url := "https://example.com" }] := by
  decide

/-- C1: for every completed crawl, the returned status is `"OK"`
(the spec's `OK`) exactly when the deduplicated contact list is non-empty;
when it is empty, the status is `"RESTRINGIDO"` (the spec's `RESTRICTED`)
exactly when some fetched page responded with a restricted status
(401/403/429/503), and `"NO_ENCONTRADO"` (the spec's `NOT_FOUND`) exactly
when none did. -/
theorem C1_status_classification (s : SettingsM) (o : String → FetchOutcome) :
    ((runResult s o).status = "OK" ↔ (runResult s o).contacts ≠ []) ∧
    ((runResult s o).contacts = [] →
      (((runResult s o).status = "RESTRINGIDO"
          ↔ ∃ u ∈ (runFull s o).visited, isRestrictedOut (o u) = true) ∧
       ((runResult s o).status = "NO_ENCONTRADO"
          ↔ ¬ ∃ u ∈ (runFull s o).visited, isRestrictedOut (o u) = true))) := by
  have hcls := classify_spec (runFull s o).restricted (contactsOf (runFull s o))
  have hrest := restricted_inv s o
  have hany : ((runFull s o).visited.any (fun u => isRestrictedOut (o u)) = true)
      ↔ ∃ u ∈ (runFull s o).visited, isRestrictedOut (o u) = true :=
    List.any_eq_true
  have hnot : ((runFull s o).visited.any (fun u => isRestrictedOut (o u)) = false)
      ↔ ¬ ∃ u ∈ (runFull s o).visited, isRestrictedOut (o u) = true := by
    rw [← hany]
    constructor
    · intro h hc
      rw [h] at hc
      exact Bool.false_ne_true hc
    · intro h
      cases hb : (runFull s o).visited.any (fun u => isRestrictedOut (o u)) with
      | false => rfl
      | true => exact absurd hb h
  refine ⟨hcls.1, fun hc => ?_⟩
  obtain ⟨h1, h2⟩ := hcls.2 hc
  constructor
  · exact h1.trans (by rw [hrest]; exact hany)
  · exact h2.trans (by rw [hrest]; exact hnot)

theorem C1_status_classification_witness :
    (runResult settingsW oracleW).status = "RESTRINGIDO" :=
  ((C1_status_classification settingsW oracleW).2 (by decide)).1.mpr
    ⟨"https://s", by decide, by decide⟩

/-- C3 counterexample: the seed of `settings3`/`oracle3` yields 3 candidate
links while `max_links_per_page` is 2; the finished crawl reports
`explored_links = 2` (the post-truncation count), not the pre-truncation
candidate count 3 that the claim asserts. -/
theorem C3_counterexample_explored_links :
    (runResult settings3 oracle3).exploredLinks = 2 ∧
    (linkCandsOf (oracle3 "https://s")).length = 3 := by
  decide

/-- C3 (amended): for every page processed at depth < maxDepth, the crawl
increments the explored-links counter by the length of the *truncated* link
list returned by `_collect_links`, i.e. by
`min maxLinksPerPage (number of candidates)` — not by the pre-truncation
candidate count. -/
theorem C3_explored_links_truncated (s : SettingsM)
    (o : String → FetchOutcome) (st : CrawlState) (url : String) (depth : Nat)
    (rest : List (String × Nat)) (status : Nat) (ctype : String)
    (pcs : List Contact) (cands : List String)
    (hq : st.queue = (url, depth) :: rest)
    (hv : st.visited.contains (normalizeUrl url) = false)
    (ho : o (normalizeUrl url) = .resp status ctype pcs cands)
    (hs : restrictedStatus.contains status = false)
    (hc : strContainsSub ctype "text/html" = true)
    (hd : depth < s.maxDepth) :
    (stepBody s o st).exploredLinks
      = st.exploredLinks + min s.maxLinksPerPage cands.length := by
  have hv2 : ¬ st.visited.contains (normalizeUrl url) = true := by
    rw [hv]
    exact Bool.false_ne_true
  have hs2 : ¬ restrictedStatus.contains status = true := by
    rw [hs]
    exact Bool.false_ne_true
  unfold stepBody
  rw [hq]
  simp only [if_neg hv2, ho, if_neg hs2, if_neg (not_not_intro hc), if_pos hd]
  show st.exploredLinks + (collect_links cands s.maxLinksPerPage).length
    = st.exploredLinks + min s.maxLinksPerPage cands.length
  rw [collect_links, List.length_take]

theorem C3_explored_links_truncated_witness :
    (stepBody settings3 oracle3 stW).exploredLinks = 0 + min 2 3 :=
  C3_explored_links_truncated settings3 oracle3 stW "https://s" 0 [] 200
    "text/html" [] ["https://s/a", "https://s/b", "https://s/c"]
    rfl (by decide) (by decide) (by decide) (by decide) (by decide)

/-- C4 counterexample: with `settings4`/`oracle4` the seed is fetched
(visitedPages = 1) and the second page fails with a transport error; the loop
then stops because *two URLs were attempted* (`len(visited) == max_pages`),
even though the frontier still holds a link and `visitedPages = 1 < 2`.
The finished crawl's state refutes "the loop keeps iterating while the queue
is non-empty and visitedPages is below maxPages". -/
theorem C4_counterexample_termination :
    (runFull settings4 oracle4).queue = [("https://s/b", 1)] ∧
    (runFull settings4 oracle4).visitedPages = 1 ∧
    (runFull settings4 oracle4).visitedPages < settings4.maxPages := by
  decide

/-- C4 (amended): the crawl loop terminates exactly when the frontier queue
is empty or the number of *attempted* pages — the visited set, which also
counts fetches that failed with a transport error — has reached `maxPages`;
`visitedPages` (successful fetches only) can be strictly smaller at
termination. Stated as the loop's postcondition. -/
theorem C4_termination_attempted_pages (s : SettingsM)
    (o : String → FetchOutcome) :
    (runFull s o).queue = [] ∨ s.maxPages ≤ (runFull s o).visited.length := by
  have h : crawlGuard s (runFull s o) = false :=
    crawlLoop_guard_false s o (crawlFuel s) (initState s) (Nat.le_refl _)
  unfold crawlGuard at h
  by_cases hq : (runFull s o).queue = []
  · exact Or.inl hq
  · right
    have hne : (runFull s o).queue.isEmpty = false := by
      cases hql : (runFull s o).queue with
      | nil => exact absurd hql hq
      | cons a t => rfl
    rw [hne] at h
    simp only [Bool.not_false, Bool.true_and, decide_eq_false_iff_not,
      Nat.not_lt] at h
    exact h

/-- C5: when the primary-prompt attempt fails retryably (so the strict prompt
is tried) and the strict attempt also fails, a batch of more than one contact
is split into `chunk[:n//2]` and `chunk[n//2:]`, each half is run through the
full retry machine independently (left first), their results are concatenated
in original order and their usage metadata summed field-by-field
(`bisectCombine`); for a batch of exactly one contact the failure is terminal
and the exception propagates to the caller. -/
theorem C5_bisection (loads : String → Option Json)
    (oracle : Nat → RespOutcome) (chunk : List Contact) (k : Nat)
    (h1 : ∃ m, oracle k = RespOutcome.retryErr m)
    (h2 : attemptFails loads oracle (k + 1) chunk.length) :
    (1 < chunk.length →
      query_contacts_with_retry loads oracle chunk k
        = bisectCombine
            (query_contacts_with_retry loads oracle
              (chunk.take (chunk.length / 2)) (k + 2))
            (fun k1 => query_contacts_with_retry loads oracle
              (chunk.drop (chunk.length / 2)) k1)) ∧
    (chunk.length = 1 →
      ∃ e, query_contacts_with_retry loads oracle chunk k
        = (.error e, k + 2)) := by
  obtain ⟨m1, hm1⟩ := h1
  have hbody : ∀ fuel, chunk.isEmpty = false →
      ∃ e, qrBody loads oracle (qrAux loads oracle fuel) chunk k
        = qrBisect (qrAux loads oracle fuel) chunk e (k + 2) := by
    intro fuel hne
    unfold qrBody
    rw [if_neg (by rw [hne]; exact Bool.false_ne_true), hm1]
    rcases h2 with ⟨m2, hm2⟩ | ⟨m2, hm2⟩ | ⟨content, usage, e, hm2, hp⟩
    · rw [hm2]
      exact ⟨.retryable m2, rfl⟩
    · rw [hm2]
      exact ⟨.other m2, rfl⟩
    · rw [hm2]
      simp only [hp]
      exact ⟨e, rfl⟩
  constructor
  · intro hlen
    have hne : chunk.isEmpty = false := by
      cases chunk with
      | nil => simp at hlen
      | cons a t => rfl
    have hsucc : ∃ n, chunk.length = n + 1 := ⟨chunk.length - 1, by omega⟩
    obtain ⟨n, hn⟩ := hsucc
    unfold query_contacts_with_retry
    have hstep : qrAux loads oracle chunk.length chunk k
        = qrBody loads oracle (qrAux loads oracle n) chunk k := by
      rw [hn]
      rfl
    rw [hstep]
    obtain ⟨e, he⟩ := hbody n hne
    rw [he]
    unfold qrBisect
    rw [if_pos (by omega : 1 < chunk.length)]
    have htake : (chunk.take (chunk.length / 2)).length ≤ n := by
      rw [List.length_take]
      omega
    have hdrop : (chunk.drop (chunk.length / 2)).length ≤ n := by
      rw [List.length_drop]
      omega
    congr 1
    · exact qrAux_fuel loads oracle n _ n (k + 2) htake htake
    · funext k1
      exact qrAux_fuel loads oracle n _ n k1 hdrop hdrop
  · intro hlen
    have hne : chunk.isEmpty = false := by
      cases chunk with
      | nil => simp at hlen
      | cons a t => rfl
    unfold query_contacts_with_retry
    rw [hlen]
    have hstep : qrAux loads oracle 1 chunk k
        = qrBody loads oracle (qrAux loads oracle 0) chunk k := rfl
    rw [hstep]
    obtain ⟨e, he⟩ := hbody 0 hne
    rw [he]
    unfold qrBisect
    rw [if_neg (by omega : ¬ 1 < chunk.length)]
    exact ⟨e, rfl⟩

theorem C5_bisection_witness :
    query_contacts_with_retry loadsNone oracleRetry [cA, cB] 0
      = bisectCombine
          (query_contacts_with_retry loadsNone oracleRetry [cA] 2)
          (fun k1 => query_contacts_with_retry loadsNone oracleRetry [cB] k1) :=
  (C5_bisection loadsNone oracleRetry [cA, cB] 0 ⟨"saturado", rfl⟩
    (Or.inl ⟨"saturado", rfl⟩)).1 (by decide)

end Koko
